import Mathlib

/-!
Shallow embedding of the file-activity monitor of the
Secure-Persona-Prediction-and-Data-Leakage-Prevention-System repository
(src/monitoring/file_monitor.py and the bounded log queue of
src/gui/dashboard.py), together with proofs of its specified properties.

Strings are modelled as Lean `String`/`List Char`; Python's
case-insensitive regex alternation over literal keywords is modelled as a
leftmost, first-alternative-wins, non-overlapping scanner, which is the
semantics of `re.finditer` on `(kw1|kw2|...)` with `re.IGNORECASE` for
ASCII text.  File contents are modelled by a map from paths to a file
result (missing, unreadable, or text content), which captures
`os.path.exists` plus the `try/except` around `open`.
-/

namespace FileMonitorModel

/-- ASCII lowercasing of a character, modelling Python's case folding for
the ASCII subset used throughout the repository. -/
def lcChar (c : Char) : Char := c.toLower

/-- Case-insensitive character equality (`re.IGNORECASE` on one char). -/
def lcEq (a b : Char) : Bool := lcChar a == lcChar b

/-- `needle` matches case-insensitively at the head of `hay`. -/
def isPrefixCI : List Char → List Char → Bool
  | [], _ => true
  | _ :: _, [] => false
  | a :: as, b :: bs => lcEq a b && isPrefixCI as bs

/-- Case-sensitive substring test: Python's `needle in hay`. -/
def containsSub (needle : List Char) : List Char → Bool
  | [] => needle.isEmpty
  | c :: t => needle.isPrefixOf (c :: t) || containsSub needle t

/-- ASCII lowercase of a string: Python's `str.lower()` for ASCII text. -/
def strLower (s : String) : String := String.mk (s.toList.map lcChar)

/-- Whitespace characters stripped by Python's `str.strip()` (ASCII). -/
def isPyWS (c : Char) : Bool :=
  c == ' ' || c == '\t' || c == '\n' || c == '\r' || c == '\x0b' || c == '\x0c'

/-- Python's `str.strip()` on a list of characters. -/
def stripChars (l : List Char) : List Char :=
  ((l.dropWhile isPyWS).reverse.dropWhile isPyWS).reverse

/-- Split text content into lines at newline characters, modelling the
line iteration of Python's text-file reading (each yielded piece is one
line, without its terminating newline). -/
def splitLinesAux : List Char → List Char → List (List Char)
  | [], acc => [acc.reverse]
  | c :: rest, acc =>
    if c = '\n' then acc.reverse :: splitLinesAux rest []
    else splitLinesAux rest (c :: acc)

/-- The lines of a content string. -/
def linesOf (content : String) : List (List Char) :=
  splitLinesAux content.toList []

/-! ## os.path.splitext (POSIX), as used by `FileMonitor._is_text_file` -/

/-- The basename of a POSIX path: the characters after the last slash. -/
def basenameChars (cs : List Char) : List Char :=
  (cs.reverse.takeWhile (fun c => c ≠ '/')).reverse

/-- The extension of a basename, following CPython's `splitext`: the part
from the last dot on, provided at least one non-dot character precedes
that dot inside the basename (so dotfiles like `.bashrc` have no
extension). -/
def extOfBasename (b : List Char) : List Char :=
  let r := b.reverse
  let afterDot := r.takeWhile (fun c => c ≠ '.')
  if afterDot.length = r.length then []
  else
    let beforeDot := r.drop (afterDot.length + 1)
    if beforeDot.any (fun c => c ≠ '.') then '.' :: afterDot.reverse
    else []

/-- `os.path.splitext(p)[1]` for POSIX paths. -/
def splitextExt (p : String) : String :=
  String.mk (extOfBasename (basenameChars p.toList))

/-- The allow-list of text extensions of `FileMonitor._is_text_file`. -/
def text_extensions : List String :=
  [".txt", ".py", ".js", ".html", ".csv", ".json", ".xml", ".md", ".log",
   ".ini", ".cfg", ".conf"]

/-- `FileMonitor._is_text_file`: the extension, lowercased, is in the
allow-list. -/
def _is_text_file (file_path : String) : Bool :=
  text_extensions.contains (strLower (splitextExt file_path))

/-! ## The keyword scanner (`self.keywords_pattern.finditer`) -/

/-- The default sensitive keywords of `FileMonitor.__init__`. -/
def default_sensitive_keywords : List String :=
  ["password", "confidential", "secret", "private", "bank", "credit card",
   "ssn", "social security", "account", "classified", "restricted"]

/-- First keyword (in alternation order) matching case-insensitively at
the head of `s`; returns its length.  This is Python `re`'s
first-alternative-wins rule for `(kw1|kw2|...)`. -/
def firstMatchLen (kws : List (List Char)) (s : List Char) : Option Nat :=
  match kws with
  | [] => none
  | k :: rest => if isPrefixCI k s then some k.length else firstMatchLen rest s

/-- Fueled leftmost non-overlapping scan, modelling `finditer`: at each
position try the alternation; on a match of length `n`, report the matched
text (original casing) with its position and resume after it, otherwise
advance one character. -/
def scanPosFuel (kws : List (List Char)) : Nat → List Char → Nat → List (List Char × Nat)
  | 0, _, _ => []
  | _ + 1, [], _ => []
  | fuel + 1, c :: rest, pos =>
    match firstMatchLen kws (c :: rest) with
    | some n => (List.take n (c :: rest), pos) ::
        scanPosFuel kws fuel (List.drop (n - 1) rest) (pos + n)
    | none => scanPosFuel kws fuel rest (pos + 1)

/-- All matches of the keyword alternation in one line, with 0-based
character positions. -/
def scanPos (kws : List (List Char)) (s : List Char) : List (List Char × Nat) :=
  scanPosFuel kws s.length s 0

/-- A keyword match as built by `check_file_for_sensitive_data`:
the matched text (original casing), the 1-based line number, and the
stripped line as context. -/
structure KeywordMatch where
  keyword : String
  line : Nat
  context : String
deriving DecidableEq, Repr

/-- The matches contributed by one line. -/
def scanLine (kws : List (List Char)) (l : List Char) (lineNum : Nat) :
    List KeywordMatch :=
  (scanPos kws l).map fun m =>
    { keyword := String.mk m.1, line := lineNum, context := String.mk (stripChars l) }

/-- Matches of all lines, numbering lines from `n`. -/
def scanLinesFrom (kws : List (List Char)) : List (List Char) → Nat → List KeywordMatch
  | [], _ => []
  | l :: rest, n => scanLine kws l n ++ scanLinesFrom kws rest (n + 1)

/-- The full content scan of `check_file_for_sensitive_data`'s reading
loop: `for line_num, line in enumerate(f, 1): for match in
keywords_pattern.finditer(line): ...`. -/
def scanContent (kws : List String) (content : String) : List KeywordMatch :=
  scanLinesFrom (kws.map String.toList) (linesOf content) 1

/-! ## Specification-side view of the keyword scan

The spec speaks of "case-insensitive occurrences" of keywords.  The
following definitions build, independently of the scanner above, the list
of occurrence sites of a keyword set in a line and the `KeywordMatch`
records those sites induce. -/

/-- `k` occurs case-insensitively in `s` at position `i`. -/
def occursAt (k s : List Char) (i : Nat) : Bool := isPrefixCI k (s.drop i)

/-- The distinct lengths of keywords occurring at position `i` of `s`. -/
def siteLensAt (kws : List (List Char)) (s : List Char) (i : Nat) : List Nat :=
  ((kws.filter fun k => occursAt k s i).map List.length).dedup

/-- All occurrence sites `(position, length)` of the keyword set in `s`,
in position order. -/
def specSites (kws : List (List Char)) (s : List Char) : List (Nat × Nat) :=
  (List.range s.length).flatMap fun i => (siteLensAt kws s i).map fun n => (i, n)

/-- No two occurrence sites of the keyword set in `s` overlap: any two
occurrences are the same interval or disjoint intervals. -/
def SitesDisjoint (kws : List (List Char)) (s : List Char) : Prop :=
  ∀ i ≤ s.length, ∀ j ≤ s.length, ∀ k1 ∈ kws, ∀ k2 ∈ kws,
    occursAt k1 s i = true → occursAt k2 s j = true →
    ((i = j ∧ k1.length = k2.length) ∨ i + k1.length ≤ j ∨ j + k2.length ≤ i)

instance (kws : List (List Char)) (s : List Char) :
    Decidable (SitesDisjoint kws s) := by
  unfold SitesDisjoint
  infer_instance

/-- The `KeywordMatch` records induced by the occurrence sites of one
line: one per site, in position order, carrying the site's text in
original casing, the line number, and the stripped line. -/
def specLineMatches (kws : List (List Char)) (s : List Char) (lineNum : Nat) :
    List KeywordMatch :=
  (specSites kws s).map fun p =>
    { keyword := String.mk ((s.drop p.1).take p.2), line := lineNum,
      context := String.mk (stripChars s) }

/-- Spec-side matches of all lines, numbering lines from `n`. -/
def specLinesFrom (kws : List (List Char)) : List (List Char) → Nat → List KeywordMatch
  | [], _ => []
  | l :: rest, n => specLineMatches kws l n ++ specLinesFrom kws rest (n + 1)

/-- Spec-side content scan: one `KeywordMatch` per occurrence site, with
1-based line numbers. -/
def specScan (kws : List String) (content : String) : List KeywordMatch :=
  specLinesFrom (kws.map String.toList) (linesOf content) 1

/-! ## File system model and `check_file_for_sensitive_data` -/

/-- The result of looking a path up on disk: absent, present but failing
to open/read, or present with text content (after `errors='ignore'`
decoding). -/
inductive FileRes where
  | missing : FileRes
  | unreadable : FileRes
  | content (text : String) : FileRes
deriving DecidableEq, Repr

/-- `FileMonitor.check_file_for_sensitive_data`.  Missing file: `(False,
[])`.  Non-text extension: `(False, [])`.  Read failure: caught, `(False,
[])`.  Otherwise `(bool(matches), matches)`. -/
def check_file_for_sensitive_data (fs : String → FileRes) (kws : List String)
    (file_path : String) : Bool × List KeywordMatch :=
  match fs file_path with
  | .missing => (false, [])
  | .unreadable =>
    if _is_text_file file_path then (false, []) else (false, [])
  | .content text =>
    if _is_text_file file_path then
      let ms := scanContent kws text
      (!ms.isEmpty, ms)
    else (false, [])

/-! ## `handle_file_access` -/

/-- The dictionary returned by `handle_file_access`. -/
structure Decision where
  action : String
  reason : String
  alert_level : String
deriving DecidableEq, Repr

/-- One `log_alert` emission. -/
structure Alert where
  level : String
  message : String
deriving DecidableEq, Repr

/-- One `log_activity` emission. -/
structure ActivityEntry where
  action : String
  path : String
deriving DecidableEq, Repr

/-- The observable outcome of one `handle_file_access` call: the returned
decision, the alerts emitted via `log_alert` (in order), and the activity
entries emitted via `log_activity` (in order). -/
structure HandleResult where
  decision : Decision
  alerts : List Alert
  activity : List ActivityEntry
deriving DecidableEq, Repr

/-- The allow decision returned when no branch blocked. -/
def allowDecision : Decision :=
  { action := "allow", reason := "No threat detected", alert_level := "low" }

/-- The block decision of the exfiltration branch. -/
def exfilBlockDecision : Decision :=
  { action := "block", reason := "Potential data exfiltration detected",
    alert_level := "high" }

/-- The block decision of the email branch. -/
def emailBlockDecision : Decision :=
  { action := "block", reason := "Potential email data leak detected",
    alert_level := "high" }

/-- The test `".eml" in file_path.lower() or "email" in file_path.lower()`. -/
def isEmailIndicator (file_path : String) : Bool :=
  containsSub ".eml".toList (strLower file_path).toList ||
    containsSub "email".toList (strLower file_path).toList

/-- `FileMonitor.handle_file_access`, with the USB-detected flag read as
`usb_detected` (one consistent read of the shared state during the call).
The early `return` of the Python code is modelled by the `Option Decision`
carried out of the sensitive-data step. -/
def handle_file_access (fs : String → FileRes) (kws : List String)
    (usb_detected : Bool) (file_path access_type : String) : HandleResult :=
  let activity := [ActivityEntry.mk access_type file_path]
  let step :=
    if access_type = "created" ∨ access_type = "modified" then
      let res := check_file_for_sensitive_data fs kws file_path
      if res.1 then
        let lvl := if usb_detected then "high" else "medium"
        let a := Alert.mk lvl ("Sensitive data found in file: " ++ file_path)
        if usb_detected then ([a], some exfilBlockDecision)
        else ([a], none)
      else (([] : List Alert), (none : Option Decision))
    else ([], none)
  match step with
  | (as, some d) => ⟨d, as, activity⟩
  | (as, none) =>
    if isEmailIndicator file_path then
      let res := check_file_for_sensitive_data fs kws file_path
      if res.1 then
        let a := Alert.mk "high" ("Potential email data leak detected: " ++ file_path)
        ⟨emailBlockDecision, as ++ [a], activity⟩
      else ⟨allowDecision, as, activity⟩
    else ⟨allowDecision, as, activity⟩

/-! ## `FileEventHandler.on_moved` -/

/-- A watchdog move event. -/
structure MovedEvent where
  is_directory : Bool
  src_path : String
  dest_path : String
deriving DecidableEq, Repr

/-- `FileEventHandler.on_moved`: for a file move, handle the source path
as "moved from" and then the destination path as "moved to"; directory
events are suppressed. -/
def on_moved (fs : String → FileRes) (kws : List String) (usb_detected : Bool)
    (e : MovedEvent) : List HandleResult :=
  if e.is_directory then []
  else [handle_file_access fs kws usb_detected e.src_path "moved from",
        handle_file_access fs kws usb_detected e.dest_path "moved to"]

/-- The activity-log entries produced by a list of handler calls, in
emission order. -/
def activityTrace (rs : List HandleResult) : List ActivityEntry :=
  rs.foldr (fun r acc => r.activity ++ acc) []

/-! ## Monitor lifecycle (`start_monitoring` / `stop_monitoring`) -/

/-- The mutable state of a `FileMonitor` relevant to its lifecycle. -/
structure MonitorState where
  is_running : Bool
  observer_running : Bool
  usb_thread_running : Bool
  usb_detected : Bool
deriving DecidableEq, Repr

/-- `FileMonitor.start_monitoring` (successful path): on an already
running monitor it only logs a warning and returns; otherwise it starts
the observer and the USB thread and sets the running flag.  The second
component collects the log messages of the call. -/
def start_monitoring (st : MonitorState) : MonitorState × List String :=
  if st.is_running then (st, ["File monitoring already running"])
  else
    ({ st with
        observer_running := true
        is_running := true
        usb_thread_running := true },
      ["File monitoring started successfully"])

/-- `FileMonitor.stop_monitoring` (successful path): on a non-running
monitor it only logs a warning and returns; otherwise it stops the
observer and clears the running flag. -/
def stop_monitoring (st : MonitorState) : MonitorState × List String :=
  if !st.is_running then (st, ["File monitoring not running"])
  else ({ st with observer_running := false, is_running := false },
        ["File monitoring stopped successfully"])

end FileMonitorModel

namespace DashboardModel

/-- One queued log record of `dashboard.py` (`type` plus its payload,
which the bounding logic never inspects). -/
structure QLog where
  ltype : String
  payload : String
deriving DecidableEq, Repr

/-- The dashboard session state holding the two bounded sequences. -/
structure DashState where
  file_logs : List QLog
  alerts : List QLog
deriving DecidableEq, Repr

/-- Processing of one dequeued record in `process_queue`: append to the
matching sequence, then `pop(0)` if its length exceeds 100. -/
def processOne (st : DashState) (log : QLog) : DashState :=
  if log.ltype = "file_access" then
    let fl := st.file_logs ++ [log]
    { st with file_logs := (if fl.length > 100 then fl.drop 1 else fl) }
  else if log.ltype = "alert" then
    let al := st.alerts ++ [log]
    { st with alerts := (if al.length > 100 then al.drop 1 else al) }
  else st

/-- `process_queue`: drain the queue, processing records in order. -/
def process_queue (st : DashState) (q : List QLog) : DashState :=
  q.foldl processOne st

/-- A dashboard state whose two sequences are both at capacity. -/
def fullState : DashState :=
  { file_logs := List.replicate 100 ⟨"file_access", "old"⟩,
    alerts := List.replicate 100 ⟨"alert", "old"⟩ }

end DashboardModel

namespace FileMonitorModel

/-- A disk holding one text file `notes.txt` with sensitive content. -/
def fsNotes : String → FileRes := fun p =>
  if p = "notes.txt" then .content "this is confidential" else .missing

/-- A disk holding one text file `email.txt` with sensitive content. -/
def fsEmailTxt : String → FileRes := fun p =>
  if p = "email.txt" then .content "password" else .missing

/-- A disk holding one file `leak.eml` (non-scannable extension) with
sensitive content. -/
def fsEml : String → FileRes := fun p =>
  if p = "leak.eml" then .content "password" else .missing

/-- A disk on which every path is missing. -/
def fsEmpty : String → FileRes := fun _ => .missing

/-- A disk on which every path exists but fails to read. -/
def fsLocked : String → FileRes := fun _ => .unreadable

end FileMonitorModel

/-! # Proofs -/

namespace FileMonitorModel

lemma isPrefixCI_length_le {k s : List Char} (h : isPrefixCI k s = true) :
    k.length ≤ s.length := by
  induction k generalizing s with
  | nil => simp
  | cons a as ih =>
    cases s with
    | nil => simp [isPrefixCI] at h
    | cons b bs =>
      simp only [isPrefixCI, Bool.and_eq_true] at h
      have := ih h.2
      simp only [List.length_cons]
      omega

lemma firstMatchLen_none {kws : List (List Char)} {s : List Char}
    (h : firstMatchLen kws s = none) : ∀ k ∈ kws, isPrefixCI k s = false := by
  induction kws with
  | nil => intro k hk; cases hk
  | cons k0 rest ih =>
    intro k hk
    unfold firstMatchLen at h
    by_cases hp : isPrefixCI k0 s = true
    · rw [if_pos hp] at h; cases h
    · rw [if_neg hp] at h
      cases hk with
      | head => exact Bool.eq_false_iff.mpr hp
      | tail _ hmem => exact ih h k hmem

lemma firstMatchLen_some {kws : List (List Char)} {s : List Char} {n : Nat}
    (h : firstMatchLen kws s = some n) :
    ∃ k ∈ kws, isPrefixCI k s = true ∧ k.length = n := by
  induction kws with
  | nil => cases h
  | cons k0 rest ih =>
    unfold firstMatchLen at h
    by_cases hp : isPrefixCI k0 s = true
    · rw [if_pos hp] at h
      exact ⟨k0, List.mem_cons_self _ _, hp, Option.some.inj h⟩
    · rw [if_neg hp] at h
      obtain ⟨k, hk, h1, h2⟩ := ih h
      exact ⟨k, List.mem_cons_of_mem _ hk, h1, h2⟩

lemma occursAt_zero (k s : List Char) : occursAt k s 0 = isPrefixCI k s := rfl

lemma occursAt_add (k s : List Char) (n i : Nat) :
    occursAt k s (n + i) = occursAt k (s.drop n) i := by
  unfold occursAt
  rw [List.drop_drop]

lemma occursAt_succ_cons (k : List Char) (c : Char) (rest : List Char) (i : Nat) :
    occursAt k (c :: rest) (i + 1) = occursAt k rest i := rfl

lemma siteLensAt_add (kws : List (List Char)) (s : List Char) (n i : Nat) :
    siteLensAt kws s (n + i) = siteLensAt kws (s.drop n) i := by
  unfold siteLensAt
  congr 2
  exact List.filter_congr fun k _ => occursAt_add k s n i

lemma siteLensAt_succ_cons (kws : List (List Char)) (c : Char) (rest : List Char)
    (i : Nat) : siteLensAt kws (c :: rest) (i + 1) = siteLensAt kws rest i := rfl

lemma dedup_eq_single {l : List Nat} {n : Nat} (hne : l ≠ [])
    (hall : ∀ x ∈ l, x = n) : l.dedup = [n] := by
  induction l with
  | nil => exact absurd rfl hne
  | cons a t ih =>
    have ha : a = n := hall a (by simp)
    cases t with
    | nil => simp [ha]
    | cons b t' =>
      have hb : b = n := hall b (by simp)
      have hmem : a ∈ b :: t' := by simp [ha, hb]
      rw [List.dedup_cons_of_mem hmem]
      exact ih (by simp) fun x hx => hall x (List.mem_cons_of_mem _ hx)

lemma sitesDisjoint_drop {kws : List (List Char)} {s : List Char}
    (hd : SitesDisjoint kws s) (n : Nat) (hn : n ≤ s.length) :
    SitesDisjoint kws (s.drop n) := by
  intro i hi j hj k1 hk1 k2 hk2 h1 h2
  rw [List.length_drop] at hi hj
  have h1' : occursAt k1 s (n + i) = true := by rw [occursAt_add]; exact h1
  have h2' : occursAt k2 s (n + j) = true := by rw [occursAt_add]; exact h2
  have hres := hd (n + i) (by omega) (n + j) (by omega) k1 hk1 k2 hk2 h1' h2'
  omega

lemma flatMap_congr {α β : Type} {l : List α} {f g : α → List β}
    (h : ∀ a ∈ l, f a = g a) : l.flatMap f = l.flatMap g := by
  induction l with
  | nil => rfl
  | cons a t ih =>
    rw [List.flatMap_cons, List.flatMap_cons, h a (by simp),
      ih fun x hx => h x (List.mem_cons_of_mem _ hx)]

lemma specSites_nil (kws : List (List Char)) : specSites kws [] = [] := by
  simp [specSites]

lemma specSites_decomp (kws : List (List Char)) (s : List Char) (n : Nat)
    (hn1 : 1 ≤ n) (hn : n ≤ s.length)
    (hmid : ∀ i, 0 < i → i < n → siteLensAt kws s i = []) :
    specSites kws s =
      (siteLensAt kws s 0).map (fun m => ((0 : Nat), m)) ++
        (specSites kws (s.drop n)).map fun p => (n + p.1, p.2) := by
  unfold specSites
  conv_lhs => rw [show s.length = n + (s.length - n) by omega, List.range_add,
    List.flatMap_append]
  congr 1
  · obtain ⟨m, rfl⟩ : ∃ m, n = m + 1 := ⟨n - 1, by omega⟩
    rw [List.range_succ_eq_map, List.flatMap_cons]
    have hnil : ((List.range m).map Nat.succ).flatMap
        (fun i => (siteLensAt kws s i).map fun x => (i, x)) = [] := by
      rw [List.flatMap_map]
      refine List.flatMap_eq_nil_iff.mpr fun i hi => ?_
      rw [List.mem_range] at hi
      rw [hmid (Nat.succ i) (by omega) (by omega)]
      rfl
    rw [hnil, List.append_nil]
  · rw [List.flatMap_map, List.map_flatMap, List.length_drop]
    refine flatMap_congr fun i hi => ?_
    rw [siteLensAt_add, List.map_map]
    rfl

lemma specSites_cons_of_none (kws : List (List Char)) (c : Char) (rest : List Char)
    (h0 : siteLensAt kws (c :: rest) 0 = []) :
    specSites kws (c :: rest) = (specSites kws rest).map fun p => (1 + p.1, p.2) := by
  have := specSites_decomp kws (c :: rest) 1 le_rfl (by simp)
    (fun i hi1 hi2 => by omega)
  rw [this, h0]
  rfl


lemma siteLensAt_zero_of_some {kws : List (List Char)} {s : List Char} {n : Nat}
    (hne : ∀ k ∈ kws, k ≠ []) (hd : SitesDisjoint kws s)
    (hm : firstMatchLen kws s = some n) : siteLensAt kws s 0 = [n] := by
  obtain ⟨k, hk, hkpre, hklen⟩ := firstMatchLen_some hm
  unfold siteLensAt
  apply dedup_eq_single
  · intro hnil
    rw [List.map_eq_nil_iff] at hnil
    have : k ∈ kws.filter fun k' => occursAt k' s 0 :=
      List.mem_filter.mpr ⟨hk, by rw [occursAt_zero]; exact hkpre⟩
    rw [hnil] at this
    cases this
  · intro x hx
    rw [List.mem_map] at hx
    obtain ⟨k', hk', rfl⟩ := hx
    rw [List.mem_filter] at hk'
    have hres := hd 0 (Nat.zero_le _) 0 (Nat.zero_le _) k' hk'.1 k hk hk'.2
      (by rw [occursAt_zero]; exact hkpre)
    have hk'ne : k'.length ≠ 0 := by
      simpa [List.length_eq_zero] using hne k' hk'.1
    have hkne : k.length ≠ 0 := by
      simpa [List.length_eq_zero] using hne k hk
    omega

lemma siteLensAt_mid_of_some {kws : List (List Char)} {s : List Char} {n i : Nat}
    (hne : ∀ k ∈ kws, k ≠ []) (hd : SitesDisjoint kws s)
    (hm : firstMatchLen kws s = some n) (hi0 : 0 < i) (hin : i < n) :
    siteLensAt kws s i = [] := by
  obtain ⟨k, hk, hkpre, hklen⟩ := firstMatchLen_some hm
  have hnlen : n ≤ s.length := hklen ▸ isPrefixCI_length_le hkpre
  have hf : (kws.filter fun k' => occursAt k' s i) = [] := by
    rw [List.filter_eq_nil_iff]
    intro k' hk' hocc
    have hres := hd i (by omega) 0 (Nat.zero_le _) k' hk' k hk hocc
      (by rw [occursAt_zero]; exact hkpre)
    have hk'ne : k'.length ≠ 0 := by
      simpa [List.length_eq_zero] using hne k' hk'
    omega
  unfold siteLensAt
  rw [hf]
  rfl

lemma scanPosFuel_succ_cons (kws : List (List Char)) (f : Nat) (c : Char)
    (rest : List Char) (pos : Nat) :
    scanPosFuel kws (f + 1) (c :: rest) pos =
      match firstMatchLen kws (c :: rest) with
      | some n => (List.take n (c :: rest), pos) ::
          scanPosFuel kws f (List.drop (n - 1) rest) (pos + n)
      | none => scanPosFuel kws f rest (pos + 1) := rfl

lemma scanPosFuel_eq_specSites (kws : List (List Char))
    (hne : ∀ k ∈ kws, k ≠ []) :
    ∀ fuel (s : List Char) (pos : Nat), s.length ≤ fuel → SitesDisjoint kws s →
      scanPosFuel kws fuel s pos =
        (specSites kws s).map fun p => ((s.drop p.1).take p.2, pos + p.1) := by
  intro fuel
  induction fuel with
  | zero =>
    intro s pos hlen _
    have hs : s = [] := List.length_eq_zero.mp (Nat.le_zero.mp hlen)
    subst hs
    simp [scanPosFuel, specSites_nil]
  | succ f ih =>
    intro s pos hlen hd
    cases s with
    | nil => simp [scanPosFuel, specSites_nil]
    | cons c rest =>
      cases hm : firstMatchLen kws (c :: rest) with
      | none =>
        have h0 : siteLensAt kws (c :: rest) 0 = [] := by
          have hf : (kws.filter fun k => occursAt k (c :: rest) 0) = [] := by
            rw [List.filter_eq_nil_iff]
            intro k hk
            rw [occursAt_zero, firstMatchLen_none hm k hk]
            simp
          unfold siteLensAt
          rw [hf]
          rfl
        have hstep : scanPosFuel kws (f + 1) (c :: rest) pos =
            scanPosFuel kws f rest (pos + 1) := by
          rw [scanPosFuel_succ_cons, hm]
        rw [hstep, specSites_cons_of_none kws c rest h0]
        have hdrest : SitesDisjoint kws rest := by
          have := sitesDisjoint_drop hd 1 (by simp)
          simpa using this
        rw [ih rest (pos + 1) (by simp at hlen; omega) hdrest, List.map_map]
        apply List.map_congr_left
        intro p _
        show ((rest.drop p.1).take p.2, pos + 1 + p.1) =
          (((c :: rest).drop (1 + p.1)).take p.2, pos + (1 + p.1))
        rw [show 1 + p.1 = p.1 + 1 by omega, List.drop_succ_cons]
        simp only [Prod.mk.injEq, true_and]
        omega
      | some n =>
        obtain ⟨k, hk, hkpre, hklen⟩ := firstMatchLen_some hm
        have hn1 : 1 ≤ n := by
          have := hne k hk
          have hlk : k.length ≠ 0 := by simpa [List.length_eq_zero] using this
          omega
        have hnlen : n ≤ (c :: rest).length := hklen ▸ isPrefixCI_length_le hkpre
        have h0 : siteLensAt kws (c :: rest) 0 = [n] :=
          siteLensAt_zero_of_some hne hd hm
        have hdec := specSites_decomp kws (c :: rest) n hn1 hnlen
          (fun i hi1 hi2 => siteLensAt_mid_of_some hne hd hm hi1 hi2)
        have hstep : scanPosFuel kws (f + 1) (c :: rest) pos =
            (List.take n (c :: rest), pos) ::
              scanPosFuel kws f (List.drop (n - 1) rest) (pos + n) := by
          rw [scanPosFuel_succ_cons, hm]
        have hdrop : List.drop (n - 1) rest = List.drop n (c :: rest) := by
          obtain ⟨m, rfl⟩ : ∃ m, n = m + 1 := ⟨n - 1, by omega⟩
          simp
        have hddrop : SitesDisjoint kws ((c :: rest).drop n) :=
          sitesDisjoint_drop hd n hnlen
        have hlen' : ((c :: rest).drop n).length ≤ f := by
          rw [List.length_drop]
          simp only [List.length_cons] at hlen ⊢
          omega
        rw [hstep, hdrop, ih _ (pos + n) hlen' hddrop, hdec, h0]
        rw [List.map_append, List.map_map, List.map_map]
        congr 1
        apply List.map_congr_left
        intro p _
        show ((((c :: rest).drop n).drop p.1).take p.2, pos + n + p.1) =
          (((c :: rest).drop (n + p.1)).take p.2, pos + (n + p.1))
        rw [List.drop_drop]
        simp only [Prod.mk.injEq, true_and]
        omega


lemma scanLine_eq_specLineMatches (kws : List (List Char)) (l : List Char)
    (lineNum : Nat) (hne : ∀ k ∈ kws, k ≠ []) (hd : SitesDisjoint kws l) :
    scanLine kws l lineNum = specLineMatches kws l lineNum := by
  unfold scanLine specLineMatches scanPos
  rw [scanPosFuel_eq_specSites kws hne l.length l 0 le_rfl hd, List.map_map]
  rfl

lemma scanLinesFrom_eq_specLinesFrom (kws : List (List Char))
    (hne : ∀ k ∈ kws, k ≠ []) :
    ∀ (ls : List (List Char)) (n : Nat), (∀ l ∈ ls, SitesDisjoint kws l) →
      scanLinesFrom kws ls n = specLinesFrom kws ls n := by
  intro ls
  induction ls with
  | nil => intro n _; rfl
  | cons l rest ih =>
    intro n hd
    unfold scanLinesFrom specLinesFrom
    rw [scanLine_eq_specLineMatches kws l n hne (hd l (by simp)),
      ih (n + 1) fun x hx => hd x (List.mem_cons_of_mem _ hx)]

lemma toList_ne_nil {k : String} (h : k ≠ "") : k.toList ≠ [] := by
  intro hl
  exact h (String.toList_inj.mp hl)

/-- **C4** (amended).  The claim as frozen fails on overlapping
occurrences (see the counterexample); under the proviso that no two
case-insensitive keyword occurrences overlap (per line), the scan of
`check_file_for_sensitive_data` returns exactly one `KeywordMatch` per
occurrence site of the keyword set, in position order, each carrying the
correct 1-based line number, the matched text with the file's original
casing, and the trimmed full line as context (this is literally the
spec-side `specScan`); and empty content yields the empty sequence, not
an error. -/
theorem scan_one_match_per_occurrence_site (kws : List String) (content : String)
    (hne : ∀ k ∈ kws, k ≠ "")
    (hd : ∀ l ∈ linesOf content, SitesDisjoint (kws.map String.toList) l) :
    scanContent kws content = specScan kws content ∧
      scanContent kws "" = [] := by
  constructor
  · unfold scanContent specScan
    apply scanLinesFrom_eq_specLinesFrom
    · intro k' hk'
      rw [List.mem_map] at hk'
      obtain ⟨k, hk, rfl⟩ := hk'
      exact toList_ne_nil (hne k hk)
    · exact hd
  · rfl

/-- Witness for **C4**: the default keyword set on a two-line content with
one occurrence per line; the hypotheses hold and the scan equals the
spec-side one-match-per-site list. -/
theorem scan_one_match_per_occurrence_site_witness :
    (∀ k ∈ default_sensitive_keywords, k ≠ "") ∧
    (∀ l ∈ linesOf "bank data\nmy PassWord",
      SitesDisjoint (default_sensitive_keywords.map String.toList) l) ∧
    scanContent default_sensitive_keywords "bank data\nmy PassWord" =
      specScan default_sensitive_keywords "bank data\nmy PassWord" :=
  ⟨by decide, by decide,
    (scan_one_match_per_occurrence_site default_sensitive_keywords
      "bank data\nmy PassWord" (by decide) (by decide)).1⟩

/-- **C4** counterexample: with configured keywords `["ab", "ba"]` and
content `"aba"`, the keyword `"ba"` occurs case-insensitively (at
position 1 of line 1), yet the scan returns no `KeywordMatch` for it —
only the single overlapping `"ab"` match is reported, so the scan does
not return one match per occurrence of each keyword. -/
theorem scan_overlap_counterexample :
    occursAt "ba".toList "aba".toList 1 = true ∧
    scanContent ["ab", "ba"] "aba" =
      [{ keyword := "ab", line := 1, context := "aba" }] ∧
    "ba" ∉ (scanContent ["ab", "ba"] "aba").map KeywordMatch.keyword := by
  refine ⟨by decide, by decide, by decide⟩


lemma check_content_scannable {fs : String → FileRes} (kws : List String)
    {p text : String} (hfs : fs p = .content text)
    (ht : _is_text_file p = true) :
    check_file_for_sensitive_data fs kws p =
      (!(scanContent kws text).isEmpty, scanContent kws text) := by
  unfold check_file_for_sensitive_data
  rw [hfs]
  simp [ht]

lemma check_eq_false_of_not_text (fs : String → FileRes) (kws : List String)
    {p : String} (ht : _is_text_file p = false) :
    check_file_for_sensitive_data fs kws p = (false, []) := by
  unfold check_file_for_sensitive_data
  cases hfs : fs p <;> simp [ht]

lemma check_eq_false_of_fail {fs : String → FileRes} (kws : List String)
    {p : String} (h : fs p = .missing ∨ fs p = .unreadable) :
    check_file_for_sensitive_data fs kws p = (false, []) := by
  unfold check_file_for_sensitive_data
  rcases h with h | h
  · rw [h]
  · rw [h]; simp

lemma text_of_check_true {fs : String → FileRes} {kws : List String}
    {p : String} (h : (check_file_for_sensitive_data fs kws p).1 = true) :
    _is_text_file p = true := by
  by_contra hf
  rw [Bool.not_eq_true] at hf
  rw [check_eq_false_of_not_text fs kws hf] at h
  cases h

lemma check_fst_true {fs : String → FileRes} (kws : List String)
    {p text : String} (hfs : fs p = .content text)
    (ht : _is_text_file p = true) (hm : scanContent kws text ≠ []) :
    (check_file_for_sensitive_data fs kws p).1 = true := by
  rw [check_content_scannable kws hfs ht]
  simp [hm]

/-- **C1**: for a Created or Modified event on a scannable path whose
content contains a sensitive keyword, with the removable-media state true
at decision time, `handle_file_access` emits exactly one High alert and
returns the Block / "Potential data exfiltration detected" / High
decision. -/
theorem handle_blocks_exfiltration_with_usb (fs : String → FileRes)
    (kws : List String) (file_path access_type text : String)
    (ht : access_type = "created" ∨ access_type = "modified")
    (hfs : fs file_path = .content text)
    (htext : _is_text_file file_path = true)
    (hm : scanContent kws text ≠ []) :
    handle_file_access fs kws true file_path access_type =
      { decision := exfilBlockDecision,
        alerts := [⟨"high", "Sensitive data found in file: " ++ file_path⟩],
        activity := [⟨access_type, file_path⟩] } := by
  have hcheck := check_fst_true kws hfs htext hm
  simp only [handle_file_access, if_pos ht, hcheck]
  rfl

/-- Witness for **C1**: a Created event on `notes.txt` containing
"this is confidential" while USB is detected. -/
theorem handle_blocks_exfiltration_with_usb_witness :
    handle_file_access fsNotes default_sensitive_keywords true "notes.txt"
        "created" =
      { decision := exfilBlockDecision,
        alerts := [⟨"high", "Sensitive data found in file: notes.txt"⟩],
        activity := [⟨"created", "notes.txt"⟩] } :=
  handle_blocks_exfiltration_with_usb fsNotes default_sensitive_keywords
    "notes.txt" "created" "this is confidential" (Or.inl rfl) (by decide)
    (by decide) (by decide)

/-- **C2**: for a Created or Modified event on a scannable,
non-email-named path whose content contains a sensitive keyword, with the
removable-media state false at decision time, `handle_file_access` emits
exactly one Medium alert and returns the Allow / "No threat detected" /
Low decision. -/
theorem handle_alerts_medium_without_usb (fs : String → FileRes)
    (kws : List String) (file_path access_type text : String)
    (ht : access_type = "created" ∨ access_type = "modified")
    (hfs : fs file_path = .content text)
    (htext : _is_text_file file_path = true)
    (hm : scanContent kws text ≠ [])
    (hemail : isEmailIndicator file_path = false) :
    handle_file_access fs kws false file_path access_type =
      { decision := allowDecision,
        alerts := [⟨"medium", "Sensitive data found in file: " ++ file_path⟩],
        activity := [⟨access_type, file_path⟩] } := by
  have hcheck := check_fst_true kws hfs htext hm
  simp only [handle_file_access, if_pos ht, hcheck, hemail]
  rfl

/-- Witness for **C2**: a Created event on `notes.txt` containing
"this is confidential" with no USB detected. -/
theorem handle_alerts_medium_without_usb_witness :
    handle_file_access fsNotes default_sensitive_keywords false "notes.txt"
        "created" =
      { decision := allowDecision,
        alerts := [⟨"medium", "Sensitive data found in file: notes.txt"⟩],
        activity := [⟨"created", "notes.txt"⟩] } :=
  handle_alerts_medium_without_usb fsNotes default_sensitive_keywords
    "notes.txt" "created" "this is confidential" (Or.inl rfl) (by decide)
    (by decide) (by decide) (by decide)


/-- **C3** (amended).  The claim as frozen quantifies over every
email-indicating path on which the Keyword Matcher finds a match in the
content; because `handle_file_access` reaches the Keyword Matcher only
through `check_file_for_sensitive_data`, which first requires a scannable
extension, the claim holds with the added proviso that the path's
extension is scannable (see the counterexample for the unrestricted
form): for every event on a path containing ".eml" or "email"
(case-insensitively) with a scannable extension whose content contains a
sensitive keyword, if the exfiltration branch has not already returned
Block, `handle_file_access` emits a High alert and returns
Block / "Potential email data leak detected" / High. -/
theorem handle_blocks_email_leak (fs : String → FileRes) (kws : List String)
    (usb : Bool) (file_path access_type text : String)
    (hemail : isEmailIndicator file_path = true)
    (hfs : fs file_path = .content text)
    (htext : _is_text_file file_path = true)
    (hm : scanContent kws text ≠ [])
    (hnb : ¬((access_type = "created" ∨ access_type = "modified") ∧ usb = true)) :
    (handle_file_access fs kws usb file_path access_type).decision =
      emailBlockDecision ∧
    (⟨"high", "Potential email data leak detected: " ++ file_path⟩ : Alert) ∈
      (handle_file_access fs kws usb file_path access_type).alerts := by
  have hcheck := check_fst_true kws hfs htext hm
  by_cases hcm : access_type = "created" ∨ access_type = "modified"
  · have husb : usb = false := by
      cases usb
      · rfl
      · exact absurd ⟨hcm, rfl⟩ hnb
    subst husb
    simp [handle_file_access, if_pos hcm, hcheck, hemail]
  · simp [handle_file_access, if_neg hcm, hcheck, hemail]

/-- Witness for **C3**: a Created event on `email.txt` containing
"password", with no USB detected (so the exfiltration branch did not
block). -/
theorem handle_blocks_email_leak_witness :
    (handle_file_access fsEmailTxt default_sensitive_keywords false "email.txt"
        "created").decision = emailBlockDecision ∧
    (⟨"high", "Potential email data leak detected: email.txt"⟩ : Alert) ∈
      (handle_file_access fsEmailTxt default_sensitive_keywords false
        "email.txt" "created").alerts :=
  handle_blocks_email_leak fsEmailTxt default_sensitive_keywords false
    "email.txt" "created" "password" (by decide) (by decide) (by decide)
    (by decide) (by decide)

/-- **C3** counterexample: the path `leak.eml` contains ".eml" and its
content "password" contains a sensitive keyword (the Keyword Matcher
finds a match in the content, and the exfiltration branch did not block
since no USB is detected), yet `handle_file_access` returns Allow with no
alert, because `.eml` is not a scannable extension and
`check_file_for_sensitive_data` therefore reports no sensitive data. -/
theorem handle_email_leak_counterexample :
    isEmailIndicator "leak.eml" = true ∧
    fsEml "leak.eml" = .content "password" ∧
    scanContent default_sensitive_keywords "password" ≠ [] ∧
    handle_file_access fsEml default_sensitive_keywords false "leak.eml"
        "created" =
      { decision := allowDecision, alerts := [],
        activity := [⟨"created", "leak.eml"⟩] } := by
  refine ⟨by decide, by decide, by decide, by decide⟩


/-- **C5**: `_is_text_file` is a pure function of the path's extension:
it returns true iff the lowercased extension is one of the twelve
allow-listed text extensions, and any two paths with the same extension
classify identically (so unknown or absent extensions, whose lowercased
extension is not in the list, return false). -/
theorem is_text_file_pure_ext (p q : String)
    (hpq : splitextExt p = splitextExt q) :
    (_is_text_file p = true ↔
      strLower (splitextExt p) ∈
        ([".txt", ".py", ".js", ".html", ".csv", ".json", ".xml", ".md",
          ".log", ".ini", ".cfg", ".conf"] : List String)) ∧
    _is_text_file p = _is_text_file q := by
  constructor
  · unfold _is_text_file text_extensions
    exact List.elem_iff
  · unfold _is_text_file
    rw [hpq]

/-- Witness for **C5**: `a/report.TXT` and `x.TXT` share the extension
`.TXT`; the membership test holds and both classify as text files. -/
theorem is_text_file_pure_ext_witness :
    ((_is_text_file "a/report.TXT" = true ↔
      strLower (splitextExt "a/report.TXT") ∈
        ([".txt", ".py", ".js", ".html", ".csv", ".json", ".xml", ".md",
          ".log", ".ini", ".cfg", ".conf"] : List String)) ∧
    _is_text_file "a/report.TXT" = _is_text_file "x.TXT") :=
  is_text_file_pure_ext "a/report.TXT" "x.TXT" (by decide)

/-- **C6**: a missing or unreadable file degrades to the negative scan
result `(False, [])`, and `handle_file_access` on such a path returns the
Allow decision normally (no exception reaches the caller, no alert is
emitted). -/
theorem check_degrades_on_read_failure (fs : String → FileRes)
    (kws : List String) (usb : Bool) (p t : String)
    (h : fs p = .missing ∨ fs p = .unreadable) :
    check_file_for_sensitive_data fs kws p = (false, []) ∧
    handle_file_access fs kws usb p t =
      { decision := allowDecision, alerts := [], activity := [⟨t, p⟩] } := by
  have hc := check_eq_false_of_fail kws h
  refine ⟨hc, ?_⟩
  simp [handle_file_access, hc]

/-- Witness for **C6**: a Modified event on a vanished file. -/
theorem check_degrades_on_read_failure_witness :
    check_file_for_sensitive_data fsEmpty default_sensitive_keywords
        "gone.txt" = (false, []) ∧
    handle_file_access fsEmpty default_sensitive_keywords true "gone.txt"
        "modified" =
      { decision := allowDecision, alerts := [],
        activity := [⟨"modified", "gone.txt"⟩] } :=
  check_degrades_on_read_failure fsEmpty default_sensitive_keywords true
    "gone.txt" "modified" (Or.inl rfl)


lemma handle_activity_eq (fs : String → FileRes) (kws : List String)
    (usb : Bool) (p t : String) :
    (handle_file_access fs kws usb p t).activity = [⟨t, p⟩] := by
  simp only [handle_file_access]
  split
  · rfl
  · split
    · split
      · rfl
      · rfl
    · rfl

/-- **C8**: a file move is handled as exactly two events in a fixed
order: the source path as "moved from" strictly before the destination
path as "moved to", so the activity log records MovedFrom(old path)
before MovedTo(new path) for that operation. -/
theorem on_moved_source_then_destination (fs : String → FileRes)
    (kws : List String) (usb : Bool) (e : MovedEvent)
    (h : e.is_directory = false) :
    on_moved fs kws usb e =
      [handle_file_access fs kws usb e.src_path "moved from",
        handle_file_access fs kws usb e.dest_path "moved to"] ∧
    activityTrace (on_moved fs kws usb e) =
      [⟨"moved from", e.src_path⟩, ⟨"moved to", e.dest_path⟩] := by
  constructor
  · simp [on_moved, h]
  · simp [on_moved, h, activityTrace, handle_activity_eq]

/-- Witness for **C8**: moving `a.txt` to `b.txt`. -/
theorem on_moved_source_then_destination_witness :
    on_moved fsEmpty default_sensitive_keywords false
        ⟨false, "a.txt", "b.txt"⟩ =
      [handle_file_access fsEmpty default_sensitive_keywords false "a.txt"
          "moved from",
        handle_file_access fsEmpty default_sensitive_keywords false "b.txt"
          "moved to"] ∧
    activityTrace (on_moved fsEmpty default_sensitive_keywords false
        ⟨false, "a.txt", "b.txt"⟩) =
      [⟨"moved from", "a.txt"⟩, ⟨"moved to", "b.txt"⟩] :=
  on_moved_source_then_destination fsEmpty default_sensitive_keywords false
    ⟨false, "a.txt", "b.txt"⟩ rfl

/-- **C9**: `start_monitoring` on an already-running monitor and
`stop_monitoring` on a non-running monitor are warning no-ops: each
returns normally with only a warning log message and leaves the monitor
state (running flag, observer, USB state) unchanged. -/
theorem lifecycle_misuse_noop (st : MonitorState) :
    (st.is_running = true →
      start_monitoring st = (st, ["File monitoring already running"])) ∧
    (st.is_running = false →
      stop_monitoring st = (st, ["File monitoring not running"])) := by
  constructor
  · intro h
    unfold start_monitoring
    rw [if_pos h]
  · intro h
    unfold stop_monitoring
    simp [h]

/-- Witness for **C9**: a running monitor started again, and a stopped
monitor stopped again. -/
theorem lifecycle_misuse_noop_witness :
    start_monitoring ⟨true, true, true, false⟩ =
      (⟨true, true, true, false⟩, ["File monitoring already running"]) ∧
    stop_monitoring ⟨false, false, false, false⟩ =
      (⟨false, false, false, false⟩, ["File monitoring not running"]) :=
  ⟨(lifecycle_misuse_noop ⟨true, true, true, false⟩).1 rfl,
    (lifecycle_misuse_noop ⟨false, false, false, false⟩).2 rfl⟩


/-- **C10**: for any path whose extension is not scannable (such as a
path ending in `.eml`), `check_file_for_sensitive_data` returns
`(False, [])` regardless of the file's content, and `handle_file_access`
therefore returns Allow / "No threat detected" / Low with no alert for
every event on that path, even with sensitive content and USB present;
moreover, whenever the email-leak Block decision is returned at all, the
path both matches the ".eml"/"email" name test and has a scannable
extension. -/
theorem non_scannable_never_blocked (fs fs' : String → FileRes)
    (kws : List String) (usb usb' : Bool) (p t p' t' : String)
    (h : _is_text_file p = false) :
    check_file_for_sensitive_data fs kws p = (false, []) ∧
    handle_file_access fs kws usb p t =
      { decision := allowDecision, alerts := [], activity := [⟨t, p⟩] } ∧
    ((handle_file_access fs' kws usb' p' t').decision = emailBlockDecision →
      isEmailIndicator p' = true ∧ _is_text_file p' = true) := by
  have hc := check_eq_false_of_not_text fs kws h
  refine ⟨hc, by simp [handle_file_access, hc], ?_⟩
  intro hdec
  by_cases hcm : t' = "created" ∨ t' = "modified"
  · by_cases hck : (check_file_for_sensitive_data fs' kws p').1 = true
    · cases usb'
      · by_cases he : isEmailIndicator p' = true
        · exact ⟨he, text_of_check_true hck⟩
        · rw [Bool.not_eq_true] at he
          simp [handle_file_access, if_pos hcm, hck, he, allowDecision,
            emailBlockDecision] at hdec
      · simp [handle_file_access, if_pos hcm, hck, exfilBlockDecision,
          emailBlockDecision] at hdec
    · rw [Bool.not_eq_true] at hck
      by_cases he : isEmailIndicator p' = true
      · simp [handle_file_access, if_pos hcm, hck, he, allowDecision,
          emailBlockDecision] at hdec
      · rw [Bool.not_eq_true] at he
        simp [handle_file_access, if_pos hcm, hck, he, allowDecision,
          emailBlockDecision] at hdec
  · by_cases hck : (check_file_for_sensitive_data fs' kws p').1 = true
    · by_cases he : isEmailIndicator p' = true
      · exact ⟨he, text_of_check_true hck⟩
      · rw [Bool.not_eq_true] at he
        simp [handle_file_access, if_neg hcm, hck, he, allowDecision,
          emailBlockDecision] at hdec
    · rw [Bool.not_eq_true] at hck
      by_cases he : isEmailIndicator p' = true
      · simp [handle_file_access, if_neg hcm, hck, he, allowDecision,
          emailBlockDecision] at hdec
      · rw [Bool.not_eq_true] at he
        simp [handle_file_access, if_neg hcm, hck, he, allowDecision,
          emailBlockDecision] at hdec

/-- Witness for **C10**: `leak.eml` holds "password" and USB is
detected, yet the scan reports nothing and the event is allowed. -/
theorem non_scannable_never_blocked_witness :
    check_file_for_sensitive_data fsEml default_sensitive_keywords
        "leak.eml" = (false, []) ∧
    handle_file_access fsEml default_sensitive_keywords true "leak.eml"
        "created" =
      { decision := allowDecision, alerts := [],
        activity := [⟨"created", "leak.eml"⟩] } ∧
    ((handle_file_access fsEmailTxt default_sensitive_keywords false
        "email.txt" "created").decision = emailBlockDecision →
      isEmailIndicator "email.txt" = true ∧ _is_text_file "email.txt" = true) :=
  non_scannable_never_blocked fsEml fsEmailTxt default_sensitive_keywords
    true false "leak.eml" "created" "email.txt" "created" (by decide)

end FileMonitorModel

namespace DashboardModel

lemma boundedAppend_len {l : List QLog} {x : QLog} (h : l.length ≤ 100) :
    (if (l ++ [x]).length > 100 then (l ++ [x]).drop 1 else l ++ [x]).length
      ≤ 100 := by
  split_ifs with hgt
  · simp at hgt ⊢
    omega
  · simp at hgt ⊢
    omega

lemma boundedAppend_evict {l : List QLog} {x : QLog} (h : l.length = 100) :
    (if (l ++ [x]).length > 100 then (l ++ [x]).drop 1 else l ++ [x]) =
      l.tail ++ [x] := by
  rw [if_pos (by simp [h]), List.drop_append_of_le_length (by omega),
    List.drop_one]

/-- **C7**: each of the two dashboard sequences is a bounded FIFO of
capacity 100: processing one queued append keeps both lengths at most
100, and an append to a sequence already holding 100 entries evicts
exactly the oldest (first) entry, the remaining entries keeping their
relative order followed by the new entry. -/
theorem dashboard_bounded_fifo (st : DashState) (log : QLog)
    (hf : st.file_logs.length ≤ 100) (ha : st.alerts.length ≤ 100) :
    ((process_queue st [log]).file_logs.length ≤ 100 ∧
      (process_queue st [log]).alerts.length ≤ 100) ∧
    (st.file_logs.length = 100 → log.ltype = "file_access" →
      (process_queue st [log]).file_logs = st.file_logs.tail ++ [log]) ∧
    (st.alerts.length = 100 → log.ltype = "alert" →
      (process_queue st [log]).alerts = st.alerts.tail ++ [log]) := by
  have hq : process_queue st [log] = processOne st log := rfl
  rw [hq]
  refine ⟨?_, ?_, ?_⟩
  · unfold processOne
    split_ifs with h1 h2
    · exact ⟨boundedAppend_len hf, ha⟩
    · exact ⟨hf, boundedAppend_len ha⟩
    · exact ⟨hf, ha⟩
  · intro h100 hl
    unfold processOne
    rw [if_pos hl]
    exact boundedAppend_evict h100
  · intro h100 hl
    unfold processOne
    rw [if_neg (by simp [hl]), if_pos hl]
    exact boundedAppend_evict h100

/-- Witness for **C7**: appending a file-access record to a dashboard
state whose sequences are both full. -/
theorem dashboard_bounded_fifo_witness :
    ((process_queue fullState [⟨"file_access", "new"⟩]).file_logs.length ≤ 100 ∧
      (process_queue fullState [⟨"file_access", "new"⟩]).alerts.length ≤ 100) ∧
    (fullState.file_logs.length = 100 →
      (⟨"file_access", "new"⟩ : QLog).ltype = "file_access" →
      (process_queue fullState [⟨"file_access", "new"⟩]).file_logs =
        fullState.file_logs.tail ++ [⟨"file_access", "new"⟩]) ∧
    (fullState.alerts.length = 100 →
      (⟨"file_access", "new"⟩ : QLog).ltype = "alert" →
      (process_queue fullState [⟨"file_access", "new"⟩]).alerts =
        fullState.alerts.tail ++ [⟨"file_access", "new"⟩]) :=
  dashboard_bounded_fifo fullState ⟨"file_access", "new"⟩
    (by simp [fullState]) (by simp [fullState])

end DashboardModel

